import Mathlib

/-!
Shallow embedding of the pcbmode footprint expansion core
(`src/pcbmode/utils/footprint.py`, class `Footprint`).

The Python code walks a parsed JSON-like footprint document and fans each
declaration out into per-sheet, per-layer shape instances.  The embedding
models the document as first-order records, models Python dict mutation by
returning the updated document alongside the accumulated shapes, and models
Python `KeyError` (a `LookupError`) with `Except String`, the payload being
the missing key.

External collaborators that are not part of this source file are passed in
as parameters or modelled from the spec:
  * `ext` models `utils.getExtendedLayerList`, the logical-to-physical layer
    resolver (spec section 4.5: an external contract, only consumed here);
  * `protate` models `Point.rotate`, the trigonometric rotation of a point
    (spec section 6: point construction/addition/rotation are black boxes);
  * `Shape` is modelled from the spec: the primitive geometry kernel
    snapshots the declaration attributes at construction time and answers
    type/scale queries (spec sections 1, 6).

Numbers (coordinates, angles, dimensions, configured buffers and scales)
are modelled as exact integers: the source only ever combines them with
addition and multiplication, so every statement below is generic in the
arithmetic and integer instances witness the concrete evaluations.
-/

namespace FootprintModel

/-- 2D point with exact integer coordinates (models `pcbmode.utils.point.Point`). -/
structure Point where
  x : Int
  y : Int
  deriving DecidableEq

/-- Coordinate-wise addition, modelling Python `Point.__add__`. -/
def Point.add (p q : Point) : Point :=
  ⟨p.x + q.x, p.y + q.y⟩

/-- Build a point from a raw coordinate pair, modelling `Point([x, y])`. -/
def Point.ofPair (pr : Int × Int) : Point :=
  ⟨pr.1, pr.2⟩

/-- A `location` value in a shape dictionary.  In the source a location is a
raw two-element list until line 90 of `footprint.py` overwrites it with a
`Point` instance; the `isinstance` check at lines 85-88 (the "NASTY hack")
accepts both forms. -/
inductive LocV where
  | raw (x y : Int)
  | pt (p : Point)
  deriving DecidableEq

/-- Convert either location form to a point, exactly what lines 85-88 do. -/
def LocV.toPoint : LocV → Point
  | .raw x y => ⟨x, y⟩
  | .pt p => p

/-- Python `x or d` for an optional boolean `x`: falsy (absent or `False`)
yields the default. -/
def pyOrB (o : Option Bool) (d : Bool) : Bool :=
  match o with
  | some true => true
  | _ => d

/-- Python `x or d` for an optional string `x`: falsy (absent or empty)
yields the default. -/
def pyOrS (o : Option String) (d : String) : String :=
  match o with
  | some s => if s = "" then d else s
  | none => d

/-- Python `shape_dict.get("layers") or ["top"]` (lines 208, 231, 254):
an absent or empty layer list falls back to the top layer. -/
def layersOrTop (o : Option (List String)) : List String :=
  match o with
  | some (l :: ls) => l :: ls
  | _ => ["top"]

/-- Python `d[k]`-style required lookup on an optional field: a missing key
raises `KeyError k`, modelled as `.error k`. -/
def require {α : Type} (o : Option α) (k : String) : Except String α :=
  match o with
  | some v => .ok v
  | none => .error k

/-- A soldermask/solderpaste override declaration or a drill declaration:
a shape dictionary without nested override blocks. -/
structure OvDict where
  type : Option String
  location : Option LocV
  rotate : Option Int
  width : Option Int
  height : Option Int
  diameter : Option Int
  scale : Option Int
  mirror : Option Bool
  deriving DecidableEq

/-- A pad or footprint-level shape declaration.  `soldermask`/`solderpaste`
model the per-sheet override blocks: `none` is an absent block (auto-derive),
`some []` is an empty collection (suppress), `some l` with `l` nonempty is
one-or-many explicit declarations (the source turns a single dict into a
one-element list at lines 159-160).  `layers` is the logical layer list of
lines 79/208/231, `layer` the singular key read by the assembly importer
(line 254). -/
structure ShapeDict where
  type : Option String
  location : Option LocV
  rotate : Option Int
  layers : Option (List String)
  layer : Option (List String)
  width : Option Int
  height : Option Int
  diameter : Option Int
  scale : Option Int
  mirror : Option Bool
  soldermask : Option (List OvDict)
  solderpaste : Option (List OvDict)
  deriving DecidableEq

/-- Modelled from the spec: the instantiated geometric primitive.  The
geometry kernel is an external collaborator ("construction and queries
only"); per the spec it snapshots the declaration's type tag, placement,
dimensions and scale at construction, and carries the optional label that
`set_label`/`set_label_style_class` attach to the instance. -/
structure Shape where
  ty : String
  location : Point
  rotate : Int
  width : Option Int
  height : Option Int
  diameter : Option Int
  scale : Int
  mirror : Bool
  label : Option String
  labelStyle : Option String
  deriving DecidableEq

/-- Modelled from the spec: `Shape(shape_dict)` on a pad or footprint-level
declaration.  Absent placement defaults to the origin, absent rotation to 0,
absent scale to 1, absent mirror to false. -/
def Shape.ofDict (d : ShapeDict) : Shape :=
  { ty := d.type.getD ""
    location := LocV.toPoint (d.location.getD (.raw 0 0))
    rotate := d.rotate.getD 0
    width := d.width
    height := d.height
    diameter := d.diameter
    scale := d.scale.getD 1
    mirror := d.mirror.getD false
    label := none
    labelStyle := none }

/-- Modelled from the spec: `Shape(sdict)` on an override or drill
declaration. -/
def Shape.ofOv (d : OvDict) : Shape :=
  { ty := d.type.getD ""
    location := LocV.toPoint (d.location.getD (.raw 0 0))
    rotate := d.rotate.getD 0
    width := d.width
    height := d.height
    diameter := d.diameter
    scale := d.scale.getD 1
    mirror := d.mirror.getD false
    label := none
    labelStyle := none }

/-- The `layout` sub-dictionary of a pin: `pins[name]["layout"]` (line 69). -/
structure PinLayout where
  location : Option (Int × Int)
  pad : Option String
  rotate : Option Int
  showLabel : Option Bool
  label : Option String
  deriving DecidableEq

/-- A pin entry; the source requires its `layout` key (line 69). -/
structure PinDict where
  layout : Option PinLayout
  deriving DecidableEq

/-- A pad template: ordered shape declarations and drill declarations. -/
structure PadDict where
  shapes : List ShapeDict
  drills : List OvDict
  deriving DecidableEq

/-- A `layout.<sheet>` section holding an optional `shapes` list. -/
structure LayoutSection where
  shapes : Option (List ShapeDict)
  deriving DecidableEq

/-- The footprint-level `layout` dictionary. -/
structure Layout where
  pours : Option LayoutSection
  conductor : Option LayoutSection
  silkscreen : Option LayoutSection
  soldermask : Option LayoutSection
  assembly : Option LayoutSection
  deriving DecidableEq

/-- The parsed footprint document (spec: FootprintDefinition).  Pins and
pads are insertion-ordered name/value pairs, as in a parsed JSON object. -/
structure FootprintDef where
  pins : Option (List (String × PinDict))
  pads : Option (List (String × PadDict))
  layout : Option Layout
  deriving DecidableEq

/-- Per-sheet distance constants: `config.cfg["distances"][sheet]`. -/
structure DistCfg where
  pathScale : Int
  rectBuffer : Int
  circleBuffer : Int
  deriving DecidableEq

/-- The global distance configuration for the two protective sheets. -/
structure Config where
  soldermask : DistCfg
  solderpaste : DistCfg
  deriving DecidableEq

/-- A per-layer ordered shape collection: an insertion-ordered dictionary
from physical layer id to the ordered list of shapes on it. -/
abbrev LayerMap := List (String × List Shape)

/-- The shape accumulator `self._shapes`: one layer map per sheet. -/
structure SheetShapes where
  conductor : LayerMap
  pours : LayerMap
  soldermask : LayerMap
  silkscreen : LayerMap
  assembly : LayerMap
  solderpaste : LayerMap
  drills : LayerMap
  deriving DecidableEq

/-- The empty accumulator built at the start of `__init__` (lines 41-49). -/
def emptySheets : SheetShapes :=
  { conductor := [], pours := [], soldermask := [], silkscreen := []
    assembly := [], solderpaste := [], drills := [] }

/-- Append a shape to a layer bucket, creating the bucket at the end of the
map if the layer is new — exactly the `if layer in d` idiom of lines
107-110 on an insertion-ordered dictionary. -/
def addShape (m : LayerMap) (layer : String) (s : Shape) : LayerMap :=
  match m with
  | [] => [(layer, [s])]
  | (l, ss) :: rest =>
    if l = layer then (l, ss ++ [s]) :: rest else (l, ss) :: addShape rest layer s

/-- First-match association lookup, modelling `d[k]` on a parsed JSON
object. -/
def lookupA {α : Type} (k : String) : List (String × α) → Option α
  | [] => none
  | (k', v) :: rest => if k' = k then some v else lookupA k rest

/-- Replace the value stored under an existing key, modelling in-place
mutation of the object found by `d[k]`.  A missing key is left alone (the
source only ever updates entries it has just looked up). -/
def updateA {α : Type} (k : String) (v : α) : List (String × α) → List (String × α)
  | [] => []
  | (k', v') :: rest =>
    if k' = k then (k', v) :: rest else (k', v') :: updateA k v rest

/-- The dict mutation of lines 82-93: overwrite the declaration's
`location` with pin location + local offset (a `Point` value from then on)
and its `rotate` with local rotation + pin rotation.  This happens on the
shared pad template dictionary itself. -/
def mergeDict (pinLocP : Point) (pinRotate : Int) (s : ShapeDict) : ShapeDict :=
  { s with
    location := some (.pt (pinLocP.add (LocV.toPoint (s.location.getD (.raw 0 0)))))
    rotate := some (s.rotate.getD 0 + pinRotate) }

/-- Lines 97-104: instantiate the merged declaration and, when the pin's
`show-label` is exactly `True` (absent defaults to `True`), attach the
pin's label (or the pin name) and the fixed style class to this instance
only. -/
def mkPadShape (pinName : String) (showLabel : Option Bool) (pinLabel : Option String)
    (s' : ShapeDict) : Shape :=
  let sh := Shape.ofDict s'
  if showLabel.getD true = true then
    { sh with label := some (pinLabel.getD pinName), labelStyle := some "pad-labels" }
  else sh

/-- Lines 162-183: the explicit-override loop.  Each override dictionary is
shallow-copied, its rotation merged with the pin rotation, its own local
location rotated by the pin rotation (line 171) — and that rotated point is
then discarded: line 173 stores the outer pad shape's offset point
`shape_loc_p` plus the pin location instead. -/
def processOverrides (protate : Int → Point → Point) (shapeLocP pinLocP : Point)
    (pinRotate : Int) (layer : String) : List OvDict → LayerMap → LayerMap
  | [], cur => cur
  | od :: rest, cur =>
    let shapeLoc := LocV.toPoint (od.location.getD (.raw 0 0))
    let _rotated := protate pinRotate shapeLoc
    let sd : OvDict :=
      { od with
        rotate := some (od.rotate.getD 0 + pinRotate)
        location := some (.pt (shapeLocP.add pinLocP)) }
    processOverrides protate shapeLocP pinLocP pinRotate layer rest
      (addShape cur layer (Shape.ofOv sd))

/-- Lines 112-183: resolve one protective sheet (soldermask or solderpaste)
for one pad shape on one layer.  `ovs` is the override block read off the
declaration; `s'` is the merged declaration and `padShape` the conductor
instance built from it.  An absent block derives a default by copying `s'`
and applying the shape-type-keyed size rule; an empty block emits nothing;
explicit declarations go through `processOverrides`. -/
def processMaskSheet (cfgDef : DistCfg) (protate : Int → Point → Point)
    (ovs : Option (List OvDict)) (s' : ShapeDict) (padShape : Shape)
    (shapeLocP pinLocP : Point) (pinRotate : Int) (layer : String)
    (cur : LayerMap) : Except String LayerMap :=
  match ovs with
  | none =>
    if padShape.ty = "path" then
      .ok (addShape cur layer
        (Shape.ofDict { s' with scale := some (padShape.scale * cfgDef.pathScale) }))
    else if padShape.ty = "rect" then
      match require s'.width "width" with
      | .error e => .error e
      | .ok w =>
        match require s'.height "height" with
        | .error e => .error e
        | .ok h =>
          .ok (addShape cur layer
            (Shape.ofDict { s' with
              width := some (w + cfgDef.rectBuffer)
              height := some (h + cfgDef.rectBuffer) }))
    else if padShape.ty = "circle" then
      match require s'.diameter "diameter" with
      | .error e => .error e
      | .ok dia =>
        .ok (addShape cur layer
          (Shape.ofDict { s' with diameter := some (dia + cfgDef.circleBuffer) }))
    else
      .ok (addShape cur layer (Shape.ofDict s'))
  | some [] => .ok cur
  | some ovsList =>
    .ok (processOverrides protate shapeLocP pinLocP pinRotate layer ovsList cur)

/-- Lines 95-183: the per-layer loop for one pad shape.  Each layer gets the
conductor instance appended, then the soldermask and solderpaste sheets are
resolved in that order. -/
def processLayers (cfg : Config) (protate : Int → Point → Point) (pinName : String)
    (showLabel : Option Bool) (pinLabel : Option String) (s' : ShapeDict)
    (shapeLocP pinLocP : Point) (pinRotate : Int) :
    List String → SheetShapes → Except String SheetShapes
  | [], acc => .ok acc
  | layer :: rest, acc =>
    let padShape := mkPadShape pinName showLabel pinLabel s'
    let acc1 := { acc with conductor := addShape acc.conductor layer padShape }
    match processMaskSheet cfg.soldermask protate s'.soldermask s' padShape
        shapeLocP pinLocP pinRotate layer acc1.soldermask with
    | .error e => .error e
    | .ok sm =>
      match processMaskSheet cfg.solderpaste protate s'.solderpaste s' padShape
          shapeLocP pinLocP pinRotate layer acc1.solderpaste with
      | .error e => .error e
      | .ok sp =>
        processLayers cfg protate pinName showLabel pinLabel s' shapeLocP pinLocP
          pinRotate rest { acc1 with soldermask := sm, solderpaste := sp }

/-- Lines 76-93 plus the layer loop: process one shape declaration of the
pad for one pin.  Returns the mutated declaration (the in-place writes of
lines 90 and 93) together with the grown accumulator. -/
def processShapeForPin (cfg : Config) (ext : List String → List String)
    (protate : Int → Point → Point) (pinName : String) (pinLocP : Point)
    (pinRotate : Int) (showLabel : Option Bool) (pinLabel : Option String)
    (s : ShapeDict) (acc : SheetShapes) : Except String (ShapeDict × SheetShapes) :=
  let layers := ext (s.layers.getD ["top"])
  let shapeLocP := LocV.toPoint (s.location.getD (.raw 0 0))
  let s' := mergeDict pinLocP pinRotate s
  match processLayers cfg protate pinName showLabel pinLabel s' shapeLocP pinLocP
      pinRotate layers acc with
  | .error e => .error e
  | .ok acc' => .ok (s', acc')

/-- The `for shape_dict in shapes` loop of line 76, threading the mutated
declarations back into the pad template. -/
def processPadShapes (cfg : Config) (ext : List String → List String)
    (protate : Int → Point → Point) (pinName : String) (pinLocP : Point)
    (pinRotate : Int) (showLabel : Option Bool) (pinLabel : Option String) :
    List ShapeDict → SheetShapes → Except String (List ShapeDict × SheetShapes)
  | [], acc => .ok ([], acc)
  | s :: rest, acc =>
    match processShapeForPin cfg ext protate pinName pinLocP pinRotate showLabel
        pinLabel s acc with
    | .error e => .error e
    | .ok (s', acc1) =>
      match processPadShapes cfg ext protate pinName pinLocP pinRotate showLabel
          pinLabel rest acc1 with
      | .error e => .error e
      | .ok (rest', acc2) => .ok (s' :: rest', acc2)

/-- Lines 185-196: the drill loop.  Each drill declaration is shallow-copied
(the template is not mutated), its type tag defaulted to "drill" when falsy,
its location set to drill offset + pin location, and the instance appended
under the fixed "top" key of the drills sheet. -/
def processDrills (pinLocP : Point) : List OvDict → LayerMap → LayerMap
  | [], cur => cur
  | d :: rest, cur =>
    let d1 : OvDict := { d with type := some (pyOrS d.type "drill") }
    let drillLocP := LocV.toPoint (d1.location.getD (.raw 0 0))
    let d2 : OvDict := { d1 with location := some (.pt (drillLocP.add pinLocP)) }
    processDrills pinLocP rest (addShape cur "top" (Shape.ofOv d2))

/-- Lines 67-196: process one pin.  Requires the pin's `layout` dictionary,
its `pad` reference and the referenced pad template (each missing one is a
`KeyError`); processes the pad's shapes and drills, and writes the mutated
shape declarations back into the pads table. -/
def processPin (cfg : Config) (ext : List String → List String)
    (protate : Int → Point → Point) (pinName : String) (pin : PinDict)
    (pads : List (String × PadDict)) (acc : SheetShapes) :
    Except String (List (String × PadDict) × SheetShapes) :=
  match require pin.layout "layout" with
  | .error e => .error e
  | .ok lay =>
    match require lay.pad "pad" with
    | .error e => .error e
    | .ok padName =>
      match require (lookupA padName pads) padName with
      | .error e => .error e
      | .ok pad =>
        match processPadShapes cfg ext protate pinName
            (Point.ofPair (lay.location.getD (0, 0))) (lay.rotate.getD 0)
            lay.showLabel lay.label pad.shapes acc with
        | .error e => .error e
        | .ok (shapes', acc1) =>
          .ok (updateA padName { pad with shapes := shapes' } pads,
            { acc1 with
              drills := processDrills (Point.ofPair (lay.location.getD (0, 0))) pad.drills acc1.drills })

/-- The `for pin_name in pins_dict` loop of line 67, threading the mutated
pads table from pin to pin. -/
def processPins (cfg : Config) (ext : List String → List String)
    (protate : Int → Point → Point) :
    List (String × PinDict) → List (String × PadDict) → SheetShapes →
    Except String (List (String × PadDict) × SheetShapes)
  | [], pads, acc => .ok (pads, acc)
  | (pinName, pin) :: rest, pads, acc =>
    match processPin cfg ext protate pinName pin pads acc with
    | .error e => .error e
    | .ok (pads1, acc1) => processPins cfg ext protate rest pads1 acc1

/-- The importer loop shared by `_process_pours` (lines 207-215) and
`_process_assembly_shapes` (lines 253-261): expand the layer list read by
`getLayers` with the falsy-default of `layersOrTop`, and append one instance
per layer.  No mutation happens here. -/
def processImportShapes (ext : List String → List String)
    (getLayers : ShapeDict → Option (List String)) :
    List ShapeDict → LayerMap → LayerMap
  | [], cur => cur
  | s :: rest, cur =>
    let layers := ext (layersOrTop (getLayers s))
    processImportShapes ext getLayers rest
      (layers.foldl (fun c l => addShape c l (Shape.ofDict s)) cur)

/-- Lines 198-215 (`_process_pours`): a missing `layout.pours.shapes` path
is swallowed and produces nothing. -/
def processPours (ext : List String → List String) (sec : Option LayoutSection)
    (acc : SheetShapes) : SheetShapes :=
  match sec with
  | none => acc
  | some s =>
    match s.shapes with
    | none => acc
    | some shapes =>
      { acc with pours := processImportShapes ext (fun d => d.layers) shapes acc.pours }

/-- Lines 232-243: the per-layer loop of the direct sheet importer for one
declaration.  On the bottom layer a `text` declaration gets its `mirror`
key overwritten with `mirror or "True"` (line 237) before the instance is
built; reading the `type` key of a declaration that lacks one raises
`KeyError` (line 236).  The possibly-mutated declaration is threaded through
the remaining layers. -/
def processDirectLayers : List String → ShapeDict → LayerMap →
    Except String (ShapeDict × LayerMap)
  | [], s, cur => .ok (s, cur)
  | layer :: rest, s, cur =>
    if layer = "bottom" then
      match require s.type "type" with
      | .error e => .error e
      | .ok ty =>
        let s1 := if ty = "text" then { s with mirror := some (pyOrB s.mirror true) } else s
        processDirectLayers rest s1 (addShape cur layer (Shape.ofDict s1))
    else
      processDirectLayers rest s (addShape cur layer (Shape.ofDict s))

/-- The `for shape_dict in shapes` loop of line 230, threading mutated
declarations back into the section. -/
def processDirectList (ext : List String → List String) :
    List ShapeDict → LayerMap → Except String (List ShapeDict × LayerMap)
  | [], cur => .ok ([], cur)
  | s :: rest, cur =>
    match processDirectLayers (ext (layersOrTop s.layers)) s cur with
    | .error e => .error e
    | .ok (s1, cur1) =>
      match processDirectList ext rest cur1 with
      | .error e => .error e
      | .ok (rest1, cur2) => .ok (s1 :: rest1, cur2)

/-- One sheet of `_process_shapes` (lines 225-228): a missing section or
`shapes` field yields an empty list (the `or []` and the bare except);
otherwise the shapes are imported and the mutated list written back. -/
def processDirectOn (ext : List String → List String) (sec : Option LayoutSection)
    (cur : LayerMap) : Except String (Option LayoutSection × LayerMap) :=
  match sec with
  | none => .ok (none, cur)
  | some s =>
    match s.shapes with
    | none => .ok (some s, cur)
    | some shapes =>
      match processDirectList ext shapes cur with
      | .error e => .error e
      | .ok (shapes1, cur1) => .ok (some { shapes := some shapes1 }, cur1)

/-- Lines 217-243 (`_process_shapes`): the conductor, silkscreen and
soldermask footprint-level sections, in that order.  A missing `layout`
altogether yields nothing for all three. -/
def processDirect (ext : List String → List String) (fp : FootprintDef)
    (acc : SheetShapes) : Except String (FootprintDef × SheetShapes) :=
  match fp.layout with
  | none => .ok (fp, acc)
  | some lay =>
    match processDirectOn ext lay.conductor acc.conductor with
    | .error e => .error e
    | .ok (c1, condMap) =>
      match processDirectOn ext lay.silkscreen acc.silkscreen with
      | .error e => .error e
      | .ok (s1, silkMap) =>
        match processDirectOn ext lay.soldermask acc.soldermask with
        | .error e => .error e
        | .ok (m1, maskMap) =>
          .ok ({ fp with layout := some { lay with
                    conductor := c1, silkscreen := s1, soldermask := m1 } },
               { acc with conductor := condMap, silkscreen := silkMap,
                          soldermask := maskMap })

/-- Lines 245-261 (`_process_assembly_shapes`): like pours, but the layer
list is read from the singular `layer` key. -/
def processAssembly (ext : List String → List String) (sec : Option LayoutSection)
    (acc : SheetShapes) : SheetShapes :=
  match sec with
  | none => acc
  | some s =>
    match s.shapes with
    | none => acc
    | some shapes =>
      { acc with assembly := processImportShapes ext (fun d => d.layer) shapes acc.assembly }

/-- `Footprint.__init__` (lines 36-54): pins, then pours, then the direct
sheets, then assembly, over a fresh accumulator.  The returned footprint
carries every in-place mutation the Python code performed on the caller's
document; an error is a Python `KeyError` escaping the constructor, in which
case no shape collection exists at all. -/
def footprintProcess (cfg : Config) (ext : List String → List String)
    (protate : Int → Point → Point) (fp : FootprintDef) :
    Except String (FootprintDef × SheetShapes) :=
  match processPins cfg ext protate (fp.pins.getD []) (fp.pads.getD []) emptySheets with
  | .error e => .error e
  | .ok (padsOut, acc0) =>
    let fp1 := { fp with pads := fp.pads.map (fun _ => padsOut) }
    let acc1 := processPours ext (fp1.layout.bind (fun l => l.pours)) acc0
    match processDirect ext fp1 acc1 with
    | .error e => .error e
    | .ok (fp2, acc2) =>
      let acc3 := processAssembly ext (fp2.layout.bind (fun l => l.assembly)) acc2
      .ok (fp2, acc3)

/-! ### Claim-side specification values

These definitions follow the wording of the specification, to be compared
with the behaviour of the embedded source functions above. -/

/-- The derived conductor shape the spec promises for a pad shape placed by
a pin: absolute location = pin location + the declaration's local offset
(the offset is added directly, not rotated first), absolute rotation = the
declaration's local rotation summed with the pin rotation, dimensions
taken unchanged from the declaration, and the pin label attached exactly
when the pin shows labels. -/
def conductorShapeSpec (pinName : String) (pinLocP : Point) (pinRotate : Int)
    (showLabel : Option Bool) (pinLabel : Option String) (s : ShapeDict) : Shape :=
  { ty := s.type.getD ""
    location := pinLocP.add (LocV.toPoint (s.location.getD (.raw 0 0)))
    rotate := s.rotate.getD 0 + pinRotate
    width := s.width
    height := s.height
    diameter := s.diameter
    scale := s.scale.getD 1
    mirror := s.mirror.getD false
    label := if showLabel.getD true = true then some (pinLabel.getD pinName) else none
    labelStyle := if showLabel.getD true = true then some "pad-labels" else none }

/-- The conductor sheet contents the spec promises for one pin: every shape
declaration of the pad fans out over its resolved physical layers, each
layer receiving the derived shape of `conductorShapeSpec`. -/
def conductorSpec (ext : List String → List String) (pinName : String)
    (pinLocP : Point) (pinRotate : Int) (showLabel : Option Bool)
    (pinLabel : Option String) : List ShapeDict → LayerMap → LayerMap
  | [], cur => cur
  | s :: rest, cur =>
    conductorSpec ext pinName pinLocP pinRotate showLabel pinLabel rest
      ((ext (s.layers.getD ["top"])).foldl
        (fun c l => addShape c l
          (conductorShapeSpec pinName pinLocP pinRotate showLabel pinLabel s)) cur)

/-- Total number of derived shapes the spec promises on the conductor sheet
for one pin: the sum over the pad's declarations of the length of each
declaration's resolved layer list (the N x L count). -/
def countSpec (ext : List String → List String) (shapes : List ShapeDict) : Nat :=
  (shapes.map (fun s => (ext (s.layers.getD ["top"])).length)).sum

/-- The default protective-sheet declaration the spec promises when no
override block is present: a duplicate of the (merged) declaration with the
shape-type-keyed size rule applied — path scale multiplied by the configured
path-scale, rect width and height grown by the configured rect-buffer,
circle diameter grown by the configured circle-buffer, anything else
unchanged. -/
def defaultMaskSpec (cfgDef : DistCfg) (s : ShapeDict) : ShapeDict :=
  if s.type.getD "" = "path" then
    { s with scale := some (s.scale.getD 1 * cfgDef.pathScale) }
  else if s.type.getD "" = "rect" then
    { s with width := s.width.map (fun w => w + cfgDef.rectBuffer),
             height := s.height.map (fun h => h + cfgDef.rectBuffer) }
  else if s.type.getD "" = "circle" then
    { s with diameter := s.diameter.map (fun d => d + cfgDef.circleBuffer) }
  else s

/-- The shape the spec says an explicit soldermask/solderpaste override
emits: the override's declared rotation plus the pin rotation, located at
the original pad shape's unrotated local offset plus the pin location.
Note that neither the override's own declared location nor any rotation
semantics appears here. -/
def overrideSpec (od : OvDict) (shapeLocP pinLocP : Point) (pinRotate : Int) : Shape :=
  { ty := od.type.getD ""
    location := shapeLocP.add pinLocP
    rotate := od.rotate.getD 0 + pinRotate
    width := od.width
    height := od.height
    diameter := od.diameter
    scale := od.scale.getD 1
    mirror := od.mirror.getD false
    label := none
    labelStyle := none }

/-- The drill shape the spec promises: the drill declaration with its type
tag defaulted to the generic "drill" marker when unset, placed at the
drill's local offset plus the pin location. -/
def drillShapeSpec (pinLocP : Point) (d : OvDict) : Shape :=
  { ty := pyOrS d.type "drill"
    location := (LocV.toPoint (d.location.getD (.raw 0 0))).add pinLocP
    rotate := d.rotate.getD 0
    width := d.width
    height := d.height
    diameter := d.diameter
    scale := d.scale.getD 1
    mirror := d.mirror.getD false
    label := none
    labelStyle := none }

/-! ### Projections and concrete instances used by the closed theorems -/

/-- Shapes stored under one layer of a layer map. -/
def layerGet (m : LayerMap) (layer : String) : List Shape :=
  match m with
  | [] => []
  | (l, ss) :: rest => if l = layer then ss else layerGet rest layer

/-- Total number of shapes in a layer map. -/
def sheetTotal (m : LayerMap) : Nat :=
  (m.map (fun pr => pr.2.length)).sum

/-- The document as the expansion left it, when the expansion succeeded. -/
def runDefAfter (cfg : Config) (ext : List String → List String)
    (protate : Int → Point → Point) (fp : FootprintDef) : Option FootprintDef :=
  match footprintProcess cfg ext protate fp with
  | .ok pr => some pr.1
  | .error _ => none

/-- The shape collection the expansion produced, when it succeeded. -/
def runOut (cfg : Config) (ext : List String → List String)
    (protate : Int → Point → Point) (fp : FootprintDef) : Option SheetShapes :=
  match footprintProcess cfg ext protate fp with
  | .ok pr => some pr.2
  | .error _ => none

/-- Run the expansion twice the way two consecutive `Footprint(fp)` calls
on the same in-memory document do: the second call receives the document as
the first call left it. -/
def expandTwice (cfg : Config) (ext : List String → List String)
    (protate : Int → Point → Point) (fp : FootprintDef) :
    Option (SheetShapes × SheetShapes) :=
  match footprintProcess cfg ext protate fp with
  | .error _ => none
  | .ok (fp1, o1) =>
    match footprintProcess cfg ext protate fp1 with
    | .error _ => none
    | .ok (_, o2) => some (o1, o2)

/-- A layer resolver that maps concrete physical layer tokens to
themselves — the simplest resolver satisfying the spec contract, used for
the concrete evaluations. -/
def extId : List String → List String := fun l => l

/-- A concrete point-rotation collaborator for the closed evaluations (its
value never reaches any output; see claim C4). -/
def rotZ : Int → Point → Point := fun _ p => p

/-- A concrete distance configuration. -/
def cfgA : Config :=
  { soldermask := { pathScale := 2, rectBuffer := 3, circleBuffer := 5 }
    solderpaste := { pathScale := 7, rectBuffer := 11, circleBuffer := 13 } }

/-- An as-authored shape dictionary with every optional field absent. -/
def blankShape : ShapeDict :=
  { type := none, location := none, rotate := none, layers := none, layer := none
    width := none, height := none, diameter := none, scale := none, mirror := none
    soldermask := none, solderpaste := none }

/-- An as-authored override/drill dictionary with every field absent. -/
def blankOv : OvDict :=
  { type := none, location := none, rotate := none, width := none, height := none
    diameter := none, scale := none, mirror := none }

/-- A rect declaration of width 1 and height 1, as authored. -/
def rdW : ShapeDict :=
  { blankShape with type := some "rect", width := some 1, height := some 1 }

/-- An authored rect pad shape with offset (1,1), rotation 5 and both
protective sheets suppressed. -/
def sW : ShapeDict :=
  { blankShape with
    type := some "rect", width := some 1, height := some 1,
    location := some (.raw 1 1), rotate := some 5, layers := some ["top"],
    soldermask := some [], solderpaste := some [] }

/-- A pin layout at (2,3) with rotation 10 referencing pad "A". -/
def layW : PinLayout :=
  { location := some (2, 3), pad := some "A", rotate := some 10,
    showLabel := none, label := none }

def pinW : PinDict := { layout := some layW }

def padW : PadDict := { shapes := [sW], drills := [] }

def padsW : List (String × PadDict) := [("A", padW)]

/-- The exact result of processing pin "P1" of `pinW` against `padsW`:
the pads table with the merged declaration written back, and the conductor
sheet holding the one derived shape the spec promises. -/
def rV : List (String × PadDict) × SheetShapes :=
  (updateA "A" { padW with shapes := [mergeDict (Point.ofPair (2, 3)) 10 sW] } padsW,
   { emptySheets with conductor :=
       [("top", [conductorShapeSpec "P1" (Point.ofPair (2, 3)) 10 none none sW])] })

/-- Two pins at different locations and rotations sharing one pad template
whose single rect shape has local offset (1,1) and local rotation 5; both
protective sheets are explicitly suppressed to keep the trace small. -/
def fpShared : FootprintDef :=
  { pins := some
      [("Q1", { layout := some { location := some (2, 3), pad := some "A",
                                 rotate := some 10, showLabel := none, label := none } }),
       ("Q2", { layout := some { location := some (5, 7), pad := some "A",
                                 rotate := some 20, showLabel := none, label := none } })]
    pads := some
      [("A", { shapes := [{ blankShape with
                  type := some "rect", width := some 1, height := some 1,
                  location := some (.raw 1 1), rotate := some 5,
                  layers := some ["top"],
                  soldermask := some [], solderpaste := some [] }]
               drills := [] })]
    layout := none }

/-- Same shape template as `fpShared` under a second name, for claim C2. -/
def fpC2 : FootprintDef := fpShared

/-- A single pin at (10,0) on a pad with one circle shape; used to compare
a first and a second expansion of the same document. -/
def fpC8 : FootprintDef :=
  { pins := some
      [("P1", { layout := some { location := some (10, 0), pad := some "A",
                                 rotate := none, showLabel := none, label := none } })]
    pads := some
      [("A", { shapes := [{ blankShape with
                  type := some "circle", diameter := some 1,
                  location := some (.raw 0 0), layers := some ["top"],
                  soldermask := some [], solderpaste := some [] }]
               drills := [] })]
    layout := none }

/-- The bottom-layer text declaration of `fpC7`: the author explicitly set
`mirror` to false. -/
def textC7 : ShapeDict :=
  { blankShape with type := some "text", mirror := some false, layers := some ["bottom"] }

def fpC7 : FootprintDef :=
  { pins := none, pads := none
    layout := some
      { pours := none, conductor := none
        silkscreen := some { shapes := some [textC7] }
        soldermask := none, assembly := none } }

/-- A pin layout referencing the pad name "NOPE". -/
def layMiss : PinLayout :=
  { location := some (0, 0), pad := some "NOPE", rotate := none,
    showLabel := none, label := none }

def pinMiss : PinDict := { layout := some layMiss }

/-- A pin referencing a pad name that the pad table does not contain. -/
def fpMissingPad : FootprintDef :=
  { pins := some [("P1", pinMiss)]
    pads := some [("A", { shapes := [], drills := [] })]
    layout := none }

/-! ### Helper lemmas -/

/-- Instantiating an override dictionary after the merge step of lines
168-176 yields the plain instantiation with rotation and location
overridden. -/
theorem shapeOfOv_merge (od : OvDict) (P : Point) (r : Int) :
    Shape.ofOv { od with rotate := some r, location := some (.pt P) } =
      { Shape.ofOv od with rotate := r, location := P } := by
  cases od
  rfl

/-- `overrideSpec` is the plain instantiation of the override with the
merged rotation and the discarded-offset location. -/
theorem overrideSpec_eq (od : OvDict) (shapeLocP pinLocP : Point) (pinRotate : Int) :
    overrideSpec od shapeLocP pinLocP pinRotate =
      { Shape.ofOv od with
        rotate := od.rotate.getD 0 + pinRotate
        location := shapeLocP.add pinLocP } := by
  cases od
  rfl

/-- The override loop is a left fold of `addShape` over the override list,
appending exactly the shapes of `overrideSpec`. -/
theorem processOverrides_eq_foldl (protate : Int → Point → Point)
    (shapeLocP pinLocP : Point) (pinRotate : Int) (layer : String)
    (ovs : List OvDict) (cur : LayerMap) :
    processOverrides protate shapeLocP pinLocP pinRotate layer ovs cur =
      ovs.foldl (fun c od =>
        addShape c layer (overrideSpec od shapeLocP pinLocP pinRotate)) cur := by
  induction ovs generalizing cur with
  | nil => rfl
  | cons od rest ih =>
    rw [processOverrides, List.foldl, ih, shapeOfOv_merge, overrideSpec_eq]

/-! ### Claim theorems -/

/-- C1: the claim says expansion never mutates the caller-owned definition
in place and that two pins sharing a pad template never observe each
other's offsets.  The code violates both: on `fpShared` the returned
document differs from the input (lines 90/93 overwrite the shared pad
shape's `location`/`rotate`), and the second pin's conductor shape lands at
(8,11) = pin Q2 location (5,7) plus the offset (3,4) that processing pin Q1
wrote into the shared template (the authored offset is (1,1)). -/
theorem C1_template_mutation :
    runDefAfter cfgA extId rotZ fpShared ≠ some fpShared ∧
    (runOut cfgA extId rotZ fpShared).map
        (fun o => (layerGet o.conductor "top").map (fun sh => sh.location)) =
      some [Point.mk 3 4, Point.mk 8 11] := by
  decide

/-- C2 counterexample: for pin Q2 of `fpC2` (location (5,7), rotation 20)
referencing a pad whose shape declares offset (1,1) and rotation 5, the
claim says the conductor shape sits at (6,8) with rotation 25.  The code
produces (8,11) with rotation 35, because processing pin Q1 first mutated
the shared declaration. -/
theorem C2_shared_pad_counterexample :
    (runOut cfgA extId rotZ fpC2).map
        (fun o => (layerGet o.conductor "top").map (fun sh => (sh.location, sh.rotate))) =
      some [(Point.mk 3 4, (15 : Int)), (Point.mk 8 11, 35)] ∧
    (Point.mk 8 11, (35 : Int)) ≠ (Point.mk 6 8, 25) := by
  decide

/-- C4: in the explicit soldermask/solderpaste override path, each emitted
shape carries the override's declared rotation plus the pin rotation and
sits at the original pad shape's unrotated local offset (`shapeLocP`) plus
the pin location; the result is the same for every point-rotation
collaborator `protate`, and `overrideSpec` never reads the override's own
declared location — the rotated value of line 171 is discarded. -/
theorem C4_override_placement (cfgDef : DistCfg) (protate : Int → Point → Point)
    (ovs : List OvDict) (s' : ShapeDict) (padShape : Shape)
    (shapeLocP pinLocP : Point) (pinRotate : Int) (layer : String) (cur : LayerMap) :
    processMaskSheet cfgDef protate (some ovs) s' padShape shapeLocP pinLocP
        pinRotate layer cur =
      .ok (ovs.foldl (fun c od =>
        addShape c layer (overrideSpec od shapeLocP pinLocP pinRotate)) cur) := by
  cases ovs with
  | nil => rfl
  | cons od rest =>
    exact congrArg Except.ok
      (processOverrides_eq_foldl protate shapeLocP pinLocP pinRotate layer (od :: rest) cur)

/-- C3: when a pad shape has no soldermask (resp. solderpaste) override
block, the sheet receives exactly one derived shape per call — one per
physical layer, since the source makes one such call per layer — obtained by
duplicating the (merged) declaration and applying the shape-type-keyed rule
of `defaultMaskSpec`: path scale multiplied by the configured path-scale,
rect width/height grown by the configured rect-buffer, circle diameter grown
by the configured circle-buffer, any other type unchanged.  `padShape` is
the conductor instance built from the same declaration, so its type and
scale agree with the declaration's. -/
theorem C3_default_mask (cfgDef : DistCfg) (protate : Int → Point → Point)
    (s' : ShapeDict) (padShape : Shape) (shapeLocP pinLocP : Point)
    (pinRotate : Int) (layer : String) (cur : LayerMap)
    (hty : padShape.ty = s'.type.getD "")
    (hsc : padShape.scale = s'.scale.getD 1)
    (hw : s'.type.getD "" = "rect" → s'.width.isSome ∧ s'.height.isSome)
    (hd : s'.type.getD "" = "circle" → s'.diameter.isSome) :
    processMaskSheet cfgDef protate none s' padShape shapeLocP pinLocP pinRotate
        layer cur =
      .ok (addShape cur layer (Shape.ofDict (defaultMaskSpec cfgDef s'))) := by
  rw [processMaskSheet, defaultMaskSpec, hty, hsc]
  by_cases hp : s'.type.getD "" = "path"
  · rw [if_pos hp, if_pos hp]
  · rw [if_neg hp, if_neg hp]
    by_cases hr : s'.type.getD "" = "rect"
    · obtain ⟨hw1, hw2⟩ := hw hr
      obtain ⟨w, hw1⟩ := Option.isSome_iff_exists.mp hw1
      obtain ⟨h, hw2⟩ := Option.isSome_iff_exists.mp hw2
      rw [if_pos hr, if_pos hr, hw1, hw2]
      rfl
    · rw [if_neg hr, if_neg hr]
      by_cases hc : s'.type.getD "" = "circle"
      · obtain ⟨dia, hd1⟩ := Option.isSome_iff_exists.mp (hd hc)
        rw [if_pos hc, if_pos hc, hd1]
        rfl
      · rw [if_neg hc, if_neg hc]

/-- C3 witness: a rect declaration of width 1 and height 1 with the
configured soldermask rect-buffer 3 yields exactly one soldermask shape of
width 4 and height 4. -/
theorem C3_default_mask_witness :
    (Shape.ofDict rdW).ty = rdW.type.getD "" ∧
    (Shape.ofDict rdW).scale = rdW.scale.getD 1 ∧
    (rdW.type.getD "" = "rect" → rdW.width.isSome ∧ rdW.height.isSome) ∧
    (rdW.type.getD "" = "circle" → rdW.diameter.isSome) ∧
    processMaskSheet cfgA.soldermask rotZ none rdW (Shape.ofDict rdW)
        (Point.mk 0 0) (Point.mk 0 0) 0 "top" [] =
      .ok (addShape [] "top" (Shape.ofDict (defaultMaskSpec cfgA.soldermask rdW))) ∧
    (Shape.ofDict (defaultMaskSpec cfgA.soldermask rdW)).width = some 4 ∧
    (Shape.ofDict (defaultMaskSpec cfgA.soldermask rdW)).height = some 4 :=
  ⟨rfl, rfl, by decide, by decide,
    C3_default_mask cfgA.soldermask rotZ rdW (Shape.ofDict rdW)
      (Point.mk 0 0) (Point.mk 0 0) 0 "top" [] rfl rfl (by decide) (by decide),
    by decide, by decide⟩

/-- C5: a pad shape whose soldermask override block is the empty collection
produces no soldermask shape at all on the processed layer and raises no
error (first conjunct); and the two protective sheets are resolved
independently of each other's override block — resolving one sheet, and
building the conductor instance, read nothing from the `soldermask` field
of the declaration (second and third conjuncts), so the solderpaste output
for the same shape is unaffected by the soldermask override. -/
theorem C5_empty_override (cfgDef : DistCfg) (protate : Int → Point → Point)
    (s : ShapeDict) (padShape : Shape) (shapeLocP pinLocP : Point)
    (pinRotate : Int) (layer : String) (cur : LayerMap)
    (ovsp : Option (List OvDict)) (pinName : String) (showLabel : Option Bool)
    (pinLabel : Option String) :
    processMaskSheet cfgDef protate (some []) s padShape shapeLocP pinLocP
        pinRotate layer cur = .ok cur ∧
    (∀ a b : Option (List OvDict),
      processMaskSheet cfgDef protate ovsp { s with soldermask := a } padShape
          shapeLocP pinLocP pinRotate layer cur =
        processMaskSheet cfgDef protate ovsp { s with soldermask := b } padShape
          shapeLocP pinLocP pinRotate layer cur) ∧
    (∀ a b : Option (List OvDict),
      mkPadShape pinName showLabel pinLabel { s with soldermask := a } =
        mkPadShape pinName showLabel pinLabel { s with soldermask := b }) := by
  refine ⟨rfl, ?_, ?_⟩
  · intro a b
    cases s
    cases ovsp with
    | none => rfl
    | some l =>
      cases l with
      | nil => rfl
      | cons od rest => rfl
  · intro a b
    cases s
    rfl

/-- C7: the claim says an explicit author-set mirror flag on a bottom-layer
text declaration is respected.  The code violates it: `textC7` declares
`mirror: false`, yet the emitted bottom silkscreen shape has its mirror
flag forced to true, because line 237 replaces any falsy mirror value with
the truthy string "True". -/
theorem C7_explicit_mirror_overridden :
    textC7.mirror = some false ∧
    (runOut cfgA extId rotZ fpC7).map
        (fun o => (layerGet o.silkscreen "bottom").map (fun sh => sh.mirror)) =
      some [true] ∧
    (some [true] : Option (List Bool)) ≠ some [false] := by
  decide

/-- C8: the claim says running the expansion twice on the same document
yields identical collections.  The code violates it: the first run on
`fpC8` leaves the pad template mutated, so a second `Footprint(...)` call
on the same in-memory document places the single conductor shape at (20,0)
instead of (10,0). -/
theorem C8_not_idempotent :
    (expandTwice cfgA extId rotZ fpC8).map
        (fun pr => ((layerGet pr.1.conductor "top").map (fun sh => sh.location),
                    (layerGet pr.2.conductor "top").map (fun sh => sh.location))) =
      some ([Point.mk 10 0], [Point.mk 20 0]) ∧
    [Point.mk 10 0] ≠ [Point.mk 20 0] := by
  decide

/-- The conductor instance of the merged declaration is exactly the derived
shape the spec promises for the pin. -/
theorem mkPadShape_merge (pinName : String) (showLabel : Option Bool)
    (pinLabel : Option String) (pinLocP : Point) (pinRotate : Int) (s : ShapeDict) :
    mkPadShape pinName showLabel pinLabel (mergeDict pinLocP pinRotate s) =
      conductorShapeSpec pinName pinLocP pinRotate showLabel pinLabel s := by
  cases s
  by_cases hsl : showLabel.getD true = true
  · simp [mkPadShape, mergeDict, Shape.ofDict, conductorShapeSpec, LocV.toPoint, hsl]
  · simp [mkPadShape, mergeDict, Shape.ofDict, conductorShapeSpec, LocV.toPoint, hsl]

/-- The conductor component of the accumulator after the per-layer loop:
one conductor instance appended per resolved physical layer; the protective
sheets never touch it. -/
theorem processLayers_conductor (cfg : Config) (protate : Int → Point → Point)
    (pinName : String) (showLabel : Option Bool) (pinLabel : Option String)
    (s' : ShapeDict) (shapeLocP pinLocP : Point) (pinRotate : Int) :
    ∀ (ls : List String) (acc acc' : SheetShapes),
      processLayers cfg protate pinName showLabel pinLabel s' shapeLocP pinLocP
          pinRotate ls acc = .ok acc' →
      acc'.conductor =
        ls.foldl (fun c l => addShape c l (mkPadShape pinName showLabel pinLabel s'))
          acc.conductor := by
  intro ls
  induction ls with
  | nil =>
    intro acc acc' h
    injection h with h
    subst h
    rfl
  | cons layer rest ih =>
    intro acc acc' h
    rw [processLayers] at h
    split at h
    · simp at h
    · split at h
      · simp at h
      · exact ih _ _ h

/-- The conductor component after processing one pad shape for one pin. -/
theorem processShapeForPin_conductor (cfg : Config) (ext : List String → List String)
    (protate : Int → Point → Point) (pinName : String) (pinLocP : Point)
    (pinRotate : Int) (showLabel : Option Bool) (pinLabel : Option String)
    (s : ShapeDict) (acc : SheetShapes) (r : ShapeDict × SheetShapes)
    (h : processShapeForPin cfg ext protate pinName pinLocP pinRotate showLabel
        pinLabel s acc = .ok r) :
    r.2.conductor =
      (ext (s.layers.getD ["top"])).foldl
        (fun c l => addShape c l
          (conductorShapeSpec pinName pinLocP pinRotate showLabel pinLabel s))
        acc.conductor := by
  rw [processShapeForPin] at h
  split at h
  · simp at h
  · rename_i acc1 heq
    cases h
    have hc := processLayers_conductor cfg protate pinName showLabel pinLabel
      (mergeDict pinLocP pinRotate s) (LocV.toPoint (s.location.getD (.raw 0 0)))
      pinLocP pinRotate _ _ _ heq
    rw [mkPadShape_merge] at hc
    exact hc

/-- The conductor component after processing all pad shapes for one pin is
exactly the spec's conductor contents. -/
theorem processPadShapes_conductor (cfg : Config) (ext : List String → List String)
    (protate : Int → Point → Point) (pinName : String) (pinLocP : Point)
    (pinRotate : Int) (showLabel : Option Bool) (pinLabel : Option String) :
    ∀ (shapes : List ShapeDict) (acc : SheetShapes) (r : List ShapeDict × SheetShapes),
      processPadShapes cfg ext protate pinName pinLocP pinRotate showLabel pinLabel
          shapes acc = .ok r →
      r.2.conductor =
        conductorSpec ext pinName pinLocP pinRotate showLabel pinLabel shapes
          acc.conductor := by
  intro shapes
  induction shapes with
  | nil =>
    intro acc r h
    cases h
    rfl
  | cons s rest ih =>
    intro acc r h
    rw [processPadShapes] at h
    split at h
    · simp at h
    · rename_i s1 acc1 heq1
      split at h
      · simp at h
      · rename_i rest1 acc2 heq2
        cases h
        rw [conductorSpec]
        have h2 := ih _ _ heq2
        rw [h2, processShapeForPin_conductor cfg ext protate pinName pinLocP
          pinRotate showLabel pinLabel s acc _ heq1]

/-- Appending one shape grows a layer map's total by one. -/
theorem sheetTotal_addShape (m : LayerMap) (layer : String) (s : Shape) :
    sheetTotal (addShape m layer s) = sheetTotal m + 1 := by
  induction m with
  | nil => rfl
  | cons pr rest ih =>
    obtain ⟨l, ss⟩ := pr
    rw [addShape]
    by_cases hl : l = layer
    · rw [if_pos hl]
      simp only [sheetTotal, List.map, List.sum_cons, List.length_append,
        List.length_cons, List.length_nil]
      omega
    · rw [if_neg hl]
      simp only [sheetTotal, List.map, List.sum_cons] at ih ⊢
      omega

/-- Folding one shape over a layer list grows the total by the list length. -/
theorem sheetTotal_foldl (sh : Shape) :
    ∀ (ls : List String) (cur : LayerMap),
      sheetTotal (ls.foldl (fun c l => addShape c l sh) cur) =
        sheetTotal cur + ls.length := by
  intro ls
  induction ls with
  | nil => intro cur; rfl
  | cons l rest ih =>
    intro cur
    rw [List.foldl, ih, sheetTotal_addShape, List.length_cons]
    omega

/-- The spec's conductor contents for one pin hold the N x L count: the sum
over declarations of the resolved layer count. -/
theorem sheetTotal_conductorSpec (ext : List String → List String) (pinName : String)
    (pinLocP : Point) (pinRotate : Int) (showLabel : Option Bool)
    (pinLabel : Option String) :
    ∀ (shapes : List ShapeDict) (cur : LayerMap),
      sheetTotal (conductorSpec ext pinName pinLocP pinRotate showLabel pinLabel
          shapes cur) =
        sheetTotal cur + countSpec ext shapes := by
  intro shapes
  induction shapes with
  | nil => intro cur; rfl
  | cons s rest ih =>
    intro cur
    rw [conductorSpec, ih, sheetTotal_foldl]
    simp only [countSpec, List.map, List.sum_cons]
    omega

/-- C2 (amended): for a pin processed while its pad's declarations still
hold the values currently stored in the pads table — in particular any pin
whose pad is not shared with an earlier-processed pin, so the stored values
are the authored ones — the conductor sheet receives exactly
`countSpec` = N x L derived shapes for that pin, namely the contents of
`conductorSpec`: per declaration and per resolved layer one shape with
location = pin location + the declaration's local offset (added directly,
not rotated) and rotation = the declaration's local rotation + the pin
rotation. -/
theorem C2_amended_pin (cfg : Config) (ext : List String → List String)
    (protate : Int → Point → Point) (pinName : String) (pin : PinDict)
    (pads : List (String × PadDict)) (acc : SheetShapes) (lay : PinLayout)
    (padName : String) (pad : PadDict) (r : List (String × PadDict) × SheetShapes)
    (h1 : pin.layout = some lay) (h2 : lay.pad = some padName)
    (h3 : lookupA padName pads = some pad)
    (h : processPin cfg ext protate pinName pin pads acc = .ok r) :
    r.2.conductor =
      conductorSpec ext pinName (Point.ofPair (lay.location.getD (0, 0)))
        (lay.rotate.getD 0) lay.showLabel lay.label pad.shapes acc.conductor ∧
    sheetTotal r.2.conductor = sheetTotal acc.conductor + countSpec ext pad.shapes := by
  rw [processPin] at h
  simp only [h1, h2, h3, require] at h
  split at h
  · simp at h
  · rename_i shapes1 acc1 heq
    cases h
    have hc := processPadShapes_conductor cfg ext protate pinName
      (Point.ofPair (lay.location.getD (0, 0))) (lay.rotate.getD 0)
      lay.showLabel lay.label pad.shapes acc _ heq
    refine ⟨hc, ?_⟩
    rw [hc, sheetTotal_conductorSpec]

/-- C2 amended witness: processing pin "P1" at (2,3) with rotation 10
against the authored pad succeeds, the conductor sheet carries exactly the
spec's contents, and the count is N x L = 1 x 1. -/
theorem C2_amended_pin_witness :
    processPin cfgA extId rotZ "P1" pinW padsW emptySheets = .ok rV ∧
    rV.2.conductor =
      conductorSpec extId "P1" (Point.ofPair (2, 3)) 10 none none padW.shapes
        emptySheets.conductor ∧
    sheetTotal rV.2.conductor =
      sheetTotal emptySheets.conductor + countSpec extId padW.shapes := by
  have hk : processPin cfgA extId rotZ "P1" pinW padsW emptySheets = .ok rV := rfl
  have hm := C2_amended_pin cfgA extId rotZ "P1" pinW padsW emptySheets layW "A"
    padW rV rfl rfl (by decide) hk
  exact ⟨hk, hm.1, hm.2⟩

/-- Updating an existing entry never makes an absent key present. -/
theorem lookupA_updateA_none {α : Type} (m k : String) (v : α) :
    ∀ l : List (String × α), lookupA m l = none → lookupA m (updateA k v l) = none := by
  intro l
  induction l with
  | nil => intro h; exact h
  | cons pr rest ih =>
    obtain ⟨k', v'⟩ := pr
    intro h
    rw [lookupA] at h
    by_cases hk : k' = m
    · rw [if_pos hk] at h
      exact absurd h (by simp)
    · rw [if_neg hk] at h
      rw [updateA]
      by_cases hkk : k' = k
      · rw [if_pos hkk, lookupA, if_neg hk]
        exact h
      · rw [if_neg hkk, lookupA, if_neg hk]
        exact ih h

/-- A successful pin only rewrites an existing pads-table entry. -/
theorem processPin_pads_update (cfg : Config) (ext : List String → List String)
    (protate : Int → Point → Point) (pinName : String) (pin : PinDict)
    (pads : List (String × PadDict)) (acc : SheetShapes)
    (r : List (String × PadDict) × SheetShapes)
    (h : processPin cfg ext protate pinName pin pads acc = .ok r) :
    ∃ k p, r.1 = updateA k p pads := by
  rw [processPin] at h
  split at h
  · simp at h
  · split at h
    · simp at h
    · split at h
      · simp at h
      · rename_i pad hpad
        split at h
        · simp at h
        · cases h
          exact ⟨_, _, rfl⟩

/-- If some declared pin references a pad name absent from the pads table,
the pin loop fails with a KeyError. -/
theorem processPins_missing (cfg : Config) (ext : List String → List String)
    (protate : Int → Point → Point) (pinName : String) (pin : PinDict)
    (lay : PinLayout) (padName : String)
    (h1 : pin.layout = some lay) (h2 : lay.pad = some padName) :
    ∀ (pins : List (String × PinDict)) (pads : List (String × PadDict))
      (acc : SheetShapes),
      (pinName, pin) ∈ pins → lookupA padName pads = none →
      ∃ e, processPins cfg ext protate pins pads acc = .error e := by
  intro pins
  induction pins with
  | nil =>
    intro pads acc hmem _
    exact absurd hmem (List.not_mem_nil _)
  | cons hd rest ih =>
    obtain ⟨n0, p0⟩ := hd
    intro pads acc hmem hlook
    rcases List.mem_cons.mp hmem with heq | hmem'
    · injection heq with ha hb
      subst ha
      subst hb
      refine ⟨padName, ?_⟩
      rw [processPins, processPin]
      simp only [h1, h2, require, hlook]
    · cases hp : processPin cfg ext protate n0 p0 pads acc with
      | error e =>
        refine ⟨e, ?_⟩
        rw [processPins, hp]
      | ok pr =>
        obtain ⟨pads1, acc1⟩ := pr
        obtain ⟨k, p, hupd⟩ := processPin_pads_update cfg ext protate n0 p0 pads
          acc _ hp
        have hlook1 : lookupA padName pads1 = none := by
          have := lookupA_updateA_none padName k p pads hlook
          rw [← hupd] at this
          exact this
        obtain ⟨e, he⟩ := ih pads1 acc1 hmem' hlook1
        refine ⟨e, ?_⟩
        rw [processPins, hp]
        exact he

/-- C6: a footprint declaring a pin whose referenced pad name is absent from
the pad table fails with a KeyError (Python's LookupError kind) carrying the
missing key, propagated out of the constructor; the expansion returns no
shape collection at all, not even a partial one. -/
theorem C6_missing_pad (cfg : Config) (ext : List String → List String)
    (protate : Int → Point → Point) (fp : FootprintDef) (pinName : String)
    (pin : PinDict) (lay : PinLayout) (padName : String)
    (hmem : (pinName, pin) ∈ fp.pins.getD []) (h1 : pin.layout = some lay)
    (h2 : lay.pad = some padName)
    (h3 : lookupA padName (fp.pads.getD []) = none) :
    ∃ e, footprintProcess cfg ext protate fp = .error e := by
  obtain ⟨e, he⟩ := processPins_missing cfg ext protate pinName pin lay padName
    h1 h2 (fp.pins.getD []) (fp.pads.getD []) emptySheets hmem h3
  refine ⟨e, ?_⟩
  rw [footprintProcess, he]

/-- C6 witness: `fpMissingPad` declares pin "P1" referencing pad "NOPE",
which the pad table lacks, and its expansion fails. -/
theorem C6_missing_pad_witness :
    (("P1", pinMiss) ∈ fpMissingPad.pins.getD [] ∧
      lookupA "NOPE" (fpMissingPad.pads.getD []) = none) ∧
    ∃ e, footprintProcess cfgA extId rotZ fpMissingPad = .error e :=
  ⟨⟨by decide, by decide⟩,
    C6_missing_pad cfgA extId rotZ fpMissingPad "P1" pinMiss layMiss "NOPE"
      (by decide) rfl rfl (by decide)⟩

/-- Projection helper: reading back the rewritten `layers` field. -/
theorem layers_set (s : ShapeDict) (l : Option (List String)) :
    ShapeDict.layers { s with layers := l } = l := by
  cases s
  rfl

/-- The shapes emitted by the direct importer's per-layer loop do not depend
on the `layers` field of the (threaded, possibly mirror-mutated)
declaration. -/
theorem processDirectLayers_snd (ls : List String) (t : Option String)
    (loc : Option LocV) (rot : Option Int) (l1 l2 lyr : Option (List String))
    (w h d sc : Option Int) (m : Option Bool) (sm sp : Option (List OvDict))
    (cur : LayerMap) :
    (processDirectLayers ls ⟨t, loc, rot, l1, lyr, w, h, d, sc, m, sm, sp⟩ cur).map
        (fun pr => pr.2) =
      (processDirectLayers ls ⟨t, loc, rot, l2, lyr, w, h, d, sc, m, sm, sp⟩ cur).map
        (fun pr => pr.2) := by
  induction ls generalizing m cur with
  | nil => rfl
  | cons layer rest ih =>
    by_cases hb : layer = "bottom"
    · rw [processDirectLayers, processDirectLayers, if_pos hb, if_pos hb]
      cases t with
      | none => rfl
      | some ty =>
        simp only [require]
        by_cases ht : ty = "text"
        · rw [if_pos ht, if_pos ht]
          exact ih _ _
        · rw [if_neg ht, if_neg ht]
          exact ih _ _
    · rw [processDirectLayers, processDirectLayers, if_neg hb, if_neg hb]
      exact ih _ _

/-- A single-declaration run of the direct importer list loop produces the
layer map of the per-layer loop. -/
theorem processDirectList_one (ext : List String → List String) (d : ShapeDict)
    (cur : LayerMap) :
    (processDirectList ext [d] cur).map (fun pr => pr.2) =
      (processDirectLayers (ext (layersOrTop d.layers)) d cur).map (fun pr => pr.2) := by
  rw [processDirectList]
  cases h : processDirectLayers (ext (layersOrTop d.layers)) d cur with
  | error e => rfl
  | ok pr => rfl

/-- C10: the logical-layer default is asymmetric.  In the importers a
present-but-empty layer list is replaced by the default top layer — the
pours importer (first conjunct), the conductor/silkscreen/soldermask
importer (second conjunct) and the assembly importer with its singular
`layer` key (third conjunct) each emit exactly what they would emit for an
explicit `["top"]`.  In the pin expander the default applies only when the
key is absent: a pad shape explicitly declaring an empty layer list resolves
to `ext [] = []` physical layers and adds zero shapes to every sheet — the
accumulator comes back unchanged (fourth conjunct). -/
theorem C10_layer_default_asymmetry (cfg : Config) (ext : List String → List String)
    (protate : Int → Point → Point) (pinName : String) (pinLocP : Point)
    (pinRotate : Int) (showLabel : Option Bool) (pinLabel : Option String)
    (s : ShapeDict) (acc : SheetShapes) (cur : LayerMap)
    (hext : ext [] = []) :
    (processImportShapes ext (fun d => d.layers) [{ s with layers := some [] }] cur =
       processImportShapes ext (fun d => d.layers) [{ s with layers := some ["top"] }] cur) ∧
    ((processDirectList ext [{ s with layers := some [] }] cur).map (fun pr => pr.2) =
       (processDirectList ext [{ s with layers := some ["top"] }] cur).map (fun pr => pr.2)) ∧
    (processImportShapes ext (fun d => d.layer) [{ s with layer := some [] }] cur =
       processImportShapes ext (fun d => d.layer) [{ s with layer := some ["top"] }] cur) ∧
    (processShapeForPin cfg ext protate pinName pinLocP pinRotate showLabel pinLabel
        { s with layers := some [] } acc =
       .ok (mergeDict pinLocP pinRotate { s with layers := some [] }, acc)) := by
  refine ⟨?_, ?_, ?_, ?_⟩
  · cases s
    rfl
  · rw [processDirectList_one, processDirectList_one, layers_set, layers_set]
    exact processDirectLayers_snd (ext ["top"]) s.type s.location s.rotate
      (some []) (some ["top"]) s.layer s.width s.height s.diameter s.scale
      s.mirror s.soldermask s.solderpaste cur
  · cases s
    rfl
  · rw [processShapeForPin, layers_set]
    rw [show ((some ([] : List String)).getD ["top"]) = [] from rfl, hext]
    rfl

/-- C10 witness: with the identity layer resolver, a pours/importer shape
declaring an empty layer list is still emitted on top, while a pad shape
declaring an empty layer list contributes nothing to any sheet. -/
theorem C10_witness :
    extId [] = [] ∧
    (processImportShapes extId (fun d => d.layers) [{ blankShape with layers := some [] }] [] =
       processImportShapes extId (fun d => d.layers) [{ blankShape with layers := some ["top"] }] []) ∧
    (processShapeForPin cfgA extId rotZ "P1" (Point.mk 1 2) 3 none none
        { blankShape with layers := some [] } emptySheets =
       .ok (mergeDict (Point.mk 1 2) 3 { blankShape with layers := some [] }, emptySheets)) :=
  ⟨rfl,
    (C10_layer_default_asymmetry cfgA extId rotZ "P1" (Point.mk 1 2) 3 none none
      blankShape emptySheets [] rfl).1,
    (C10_layer_default_asymmetry cfgA extId rotZ "P1" (Point.mk 1 2) 3 none none
      blankShape emptySheets [] rfl).2.2.2⟩

/-- C9: every drill declaration on the pad is instantiated from a duplicate
with its type tag defaulted to the generic "drill" marker when unset, its
location set to the pin location plus the drill's local offset, and is
appended under the fixed "top" key of the drills sheet, independent of any
physical layer. -/
theorem C9_drills (pinLocP : Point) (ds : List OvDict) (cur : LayerMap) :
    processDrills pinLocP ds cur =
      ds.foldl (fun c d => addShape c "top" (drillShapeSpec pinLocP d)) cur := by
  induction ds generalizing cur with
  | nil => rfl
  | cons d rest ih =>
    rw [processDrills, List.foldl, ih]
    have hd : Shape.ofOv
        { d with
          type := some (pyOrS d.type "drill")
          location := some (.pt ((LocV.toPoint (d.location.getD (.raw 0 0))).add pinLocP)) } =
        drillShapeSpec pinLocP d := by
      cases d
      rfl
    rw [hd]

end FootprintModel
